import Mathlib

/-!
Verification development for the hassio-addons trading bots
(`trading_bot_hassio_addon` and `crypto_trading_bot_hassio_addon`).

The Python sources are embedded shallowly: floats become exact rationals,
`datetime` values become rational timestamps, Python dicts become
association lists, and every fallible collaborator call (broker quote,
order placement, close confirmation, DB row id) is passed in as an
explicit `Option`/`Bool` argument, so that each orchestration routine is
a pure function of its inputs.
-/

namespace Trading

/-- Lookup in an association list, modelling Python `dict.get`. -/
def lookupA {α : Type} (k : String) : List (String × α) → Option α
  | [] => Option.none
  | (k', v) :: rest => if k' = k then some v else lookupA k rest

/-- Update-or-insert in an association list, modelling Python `d[k] = v`. -/
def setA {α : Type} (k : String) (v : α) : List (String × α) → List (String × α)
  | [] => [(k, v)]
  | (k', v') :: rest => if k' = k then (k, v) :: rest else (k', v') :: setA k v rest

@[simp] theorem lookupA_setA_self {α : Type} (k : String) (v : α) (l : List (String × α)) :
    lookupA k (setA k v l) = some v := by
  induction l with
  | nil => simp [lookupA, setA]
  | cons hd tl ih =>
    obtain ⟨k', v'⟩ := hd
    by_cases h : k' = k <;> simp [lookupA, setA, h, ih]

@[simp] theorem lookupA_setA_ne {α : Type} (k k' : String) (v : α) (l : List (String × α))
    (h : k' ≠ k) : lookupA k' (setA k v l) = lookupA k' l := by
  have h' : k ≠ k' := Ne.symm h
  induction l with
  | nil => simp [lookupA, setA, h']
  | cons hd tl ih =>
    obtain ⟨k0, v0⟩ := hd
    by_cases h0 : k0 = k
    · subst h0
      simp [lookupA, setA, h']
    · simp [lookupA, setA, h0, ih]

/-- `trading/position.py`: `PositionSide` (`long` / `short`). -/
inductive PositionSide
  | long
  | short
  deriving DecidableEq, Repr

/-- `trading/position.py`: `PositionStatus` (`open` / `closed`); the Python
value `OPEN` is rendered `opened` because `open` is a Lean keyword. -/
inductive PositionStatus
  | opened
  | closed
  deriving DecidableEq, Repr

/-- `trading_bot_hassio_addon/trading/position.py`: the `Position` dataclass.
Floats become `ℚ`, `datetime` values become rational timestamps, and the
dynamically attached `db_trade_id` attribute (assigned in
`TradingBot._enter_position`) is an explicit optional field. -/
structure Position where
  symbol : String
  exchange : String
  side : PositionSide
  entryPrice : ℚ
  quantity : ℚ
  stopLoss : ℚ
  takeProfit : ℚ
  entryTime : ℚ
  orderId : Option String
  currentPrice : ℚ
  status : PositionStatus
  closePrice : Option ℚ
  closeTime : Option ℚ
  closeReason : Option String
  dbTradeId : Option Nat
  deriving DecidableEq, Repr

/-- `Position.unrealized_pnl`: 0 while no quote has been observed
(`current_price == 0`), otherwise the side-adjusted price difference
times quantity. -/
def Position.unrealizedPnl (p : Position) : ℚ :=
  if p.currentPrice = 0 then 0
  else
    match p.side with
    | PositionSide.long => (p.currentPrice - p.entryPrice) * p.quantity
    | PositionSide.short => (p.entryPrice - p.currentPrice) * p.quantity

/-- `Position.realized_pnl`: `None` until `close_price` is set, then the
side-adjusted difference between close and entry times quantity. -/
def Position.realizedPnl (p : Position) : Option ℚ :=
  match p.closePrice with
  | Option.none => Option.none
  | some c =>
    match p.side with
    | PositionSide.long => some ((c - p.entryPrice) * p.quantity)
    | PositionSide.short => some ((p.entryPrice - c) * p.quantity)

/-- `Position.is_stop_loss_hit`: `False` while `current_price == 0`,
otherwise compares the current price against the stop level by side. -/
def Position.isStopLossHit (p : Position) : Bool :=
  if p.currentPrice = 0 then false
  else
    match p.side with
    | PositionSide.long => decide (p.currentPrice ≤ p.stopLoss)
    | PositionSide.short => decide (p.stopLoss ≤ p.currentPrice)

/-- `Position.is_take_profit_hit`: `False` while `current_price == 0`,
otherwise compares the current price against the target level by side. -/
def Position.isTakeProfitHit (p : Position) : Bool :=
  if p.currentPrice = 0 then false
  else
    match p.side with
    | PositionSide.long => decide (p.takeProfit ≤ p.currentPrice)
    | PositionSide.short => decide (p.currentPrice ≤ p.takeProfit)

/-- `Position.close(price, reason)`: sets the three close fields and flips
the status to CLOSED; `datetime.utcnow()` is the explicit `now` argument. -/
def Position.closeAt (p : Position) (price : ℚ) (now : ℚ) (reason : String) : Position :=
  { p with
    closePrice := some price
    closeTime := some now
    closeReason := some reason
    status := PositionStatus.closed }

end Trading

namespace Trading

/-- State of `trading/risk.py`'s `RiskManager` (both bots' copies share the
same fields and halt logic; `maxPositionValue` is `max_position_value` for
the equity bot and `max_position_value_usdt` for the crypto bot).
Percentage parameters are stored already divided by 100, as in
`RiskManager.__init__`. -/
structure RiskState where
  maxPositionValue : ℚ
  stopLossPct : ℚ
  takeProfitPct : ℚ
  maxDailyLossPct : ℚ
  initialPortfolioValue : Option ℚ
  dailyRealizedPnl : ℚ
  tradingHalted : Bool
  deriving DecidableEq, Repr

/-- `RiskManager.set_initial_portfolio_value(value)`. -/
def setInitialPortfolioValue (r : RiskState) (value : ℚ) : RiskState :=
  { r with
    initialPortfolioValue := some value
    dailyRealizedPnl := 0
    tradingHalted := false }

/-- `RiskManager.record_realized_pnl(pnl)`. -/
def recordRealizedPnl (r : RiskState) (pnl : ℚ) : RiskState :=
  { r with dailyRealizedPnl := r.dailyRealizedPnl + pnl }

/-- `RiskManager.reset_daily()`. -/
def resetDaily (r : RiskState) : RiskState :=
  { r with
    initialPortfolioValue := Option.none
    dailyRealizedPnl := 0
    tradingHalted := false }

/-- `RiskManager.should_halt_trading(current_portfolio_value)`: returns the
updated manager state together with the boolean result (the Python method
mutates `self._trading_halted` in place). -/
def shouldHaltTrading (r : RiskState) (current : ℚ) : RiskState × Bool :=
  if r.tradingHalted then (r, true)
  else
    match r.initialPortfolioValue with
    | Option.none => (r, false)
    | some init =>
      if init = 0 then (r, false)
      else
        if r.maxDailyLossPct ≤ (init - current) / init then
          ({ r with tradingHalted := true }, true)
        else (r, false)

/-- Results of a sequence of `should_halt_trading` calls, threading the
mutated manager state from call to call. -/
def haltResults (r : RiskState) : List ℚ → List Bool
  | [] => []
  | c :: rest =>
    let s := shouldHaltTrading r c
    s.2 :: haltResults s.1 rest

/-- Python `int(x)` applied to a float ratio: truncation toward zero. -/
def ratTrunc (x : ℚ) : ℤ :=
  if 0 ≤ x then ⌊x⌋ else ⌈x⌉

/-- Equity-bot `RiskManager.calculate_quantity(price)`:
`int(max_position_value / price)` clamped below by 0, or 0 for a
non-positive price. -/
def calculateQuantity (r : RiskState) (price : ℚ) : ℤ :=
  if price ≤ 0 then 0
  else max (ratTrunc (r.maxPositionValue / price)) 0

/-- Python 3 `round()` to an integer: round half to even. -/
def roundHalfEven (x : ℚ) : ℤ :=
  if x - ⌊x⌋ < 1 / 2 then ⌊x⌋
  else if 1 / 2 < x - ⌊x⌋ then ⌊x⌋ + 1
  else if ⌊x⌋ % 2 = 0 then ⌊x⌋ else ⌊x⌋ + 1

/-- Python `round(x, p)` for a non-negative number of decimal places. -/
def pyRound (x : ℚ) (p : Nat) : ℚ :=
  (roundHalfEven (x * 10 ^ p) : ℚ) / 10 ^ p

/-- Bounded ascending search for the least `p ≥ start` with
`1/10^p ≤ s`, returning `start + fuel` if none is found in range. -/
def precAux (s : ℚ) : Nat → Nat → Nat
  | p, 0 => p
  | p, fuel + 1 => if 1 / 10 ^ p ≤ s then p else precAux s (p + 1) fuel

/-- Crypto-bot `max(0, -int(math.floor(math.log10(step_size))))` computed
exactly: the least `p : ℕ` with `10^(-p) ≤ step_size` (0 for
`step_size ≥ 1`); `s.den` steps always suffice since `1/10^den ≤ s`
for positive `s`. -/
def precisionOf (s : ℚ) : Nat :=
  precAux s 0 s.den

/-- Crypto-bot `RiskManager.calculate_quantity(price, step_size)`:
quantity floored to a multiple of `step_size` and then re-rounded with
Python `round` at `precision` decimals. -/
def cryptoCalculateQuantity (r : RiskState) (price stepSize : ℚ) : ℚ :=
  if price ≤ 0 ∨ stepSize ≤ 0 then 0
  else
    let rawQty := r.maxPositionValue / price
    let precision := precisionOf stepSize
    let qty := (⌊rawQty / stepSize⌋ : ℚ) * stepSize
    pyRound qty precision

/-- Equity-bot `RiskManager.stop_loss_price(entry_price, side)`. -/
def stopLossPrice (r : RiskState) (entry : ℚ) (side : PositionSide) : ℚ :=
  match side with
  | PositionSide.long => pyRound (entry * (1 - r.stopLossPct)) 4
  | PositionSide.short => pyRound (entry * (1 + r.stopLossPct)) 4

/-- Equity-bot `RiskManager.take_profit_price(entry_price, side)`. -/
def takeProfitPrice (r : RiskState) (entry : ℚ) (side : PositionSide) : ℚ :=
  match side with
  | PositionSide.long => pyRound (entry * (1 + r.takeProfitPct)) 4
  | PositionSide.short => pyRound (entry * (1 - r.takeProfitPct)) 4

/-- `trading/strategy.py`: the `Signal` enum. -/
inductive Signal
  | long
  | short
  | none
  deriving DecidableEq, Repr

/-- State of `ORBStrategy`.  The source keeps two parallel dicts
`_orb_high` and `_orb_low` that are always written and removed together
(`update_orb`, `set_orb_from_bars`, `reset_symbol`, `reset_all`); they are
fused here into one map `orb : symbol → (high, low)`. -/
structure ORBState where
  orbMinutes : Nat
  volumeMultiplier : ℚ
  orb : List (String × (ℚ × ℚ))
  established : List String
  deriving DecidableEq, Repr

/-- `ORBStrategy.update_orb(symbol, high, low)`: the first observation seeds
both bounds, afterwards the stored range is widened with max/min. -/
def updateOrb (st : ORBState) (symbol : String) (high low : ℚ) : ORBState :=
  match lookupA symbol st.orb with
  | Option.none => { st with orb := setA symbol (high, low) st.orb }
  | some (h, l) => { st with orb := setA symbol (max h high, min l low) st.orb }

/-- A sequence of `update_orb` calls for one symbol, one call per bar
(`bars` lists `(high, low)` pairs in observation order). -/
def updateOrbMany (st : ORBState) (symbol : String) (bars : List (ℚ × ℚ)) : ORBState :=
  bars.foldl (fun s b => updateOrb s symbol b.1 b.2) st

/-- `ORBStrategy.orb_high(symbol)`. -/
def orbHighOf (st : ORBState) (symbol : String) : Option ℚ :=
  (lookupA symbol st.orb).map Prod.fst

/-- `ORBStrategy.orb_low(symbol)`. -/
def orbLowOf (st : ORBState) (symbol : String) : Option ℚ :=
  (lookupA symbol st.orb).map Prod.snd

/-- `ORBStrategy.finalize_orb(symbol)`: marks the symbol established if a
range has been accumulated. -/
def finalizeOrb (st : ORBState) (symbol : String) : ORBState :=
  match lookupA symbol st.orb with
  | Option.none => st
  | some _ =>
    if symbol ∈ st.established then st
    else { st with established := symbol :: st.established }

/-- `ORBStrategy.check_signal(symbol, current_price, current_volume,
avg_volume)`: NONE for an unestablished symbol or a missing range,
otherwise a breakout comparison filtered by volume (the filter is skipped
when `avg_volume == 0`). -/
def checkSignal (st : ORBState) (symbol : String)
    (currentPrice currentVolume avgVolume : ℚ) : Signal :=
  if symbol ∉ st.established then Signal.none
  else
    match lookupA symbol st.orb with
    | Option.none => Signal.none
    | some (high, low) =>
      let volumeOk := avgVolume = 0 ∨ avgVolume * st.volumeMultiplier ≤ currentVolume
      if high < currentPrice ∧ volumeOk then Signal.long
      else if currentPrice < low ∧ volumeOk then Signal.short
      else Signal.none

end Trading

namespace Trading

/-- `trading/exchanges.py`: an `ExchangeSchedule`, reduced to the two daily
instants it compares against (open and close, as seconds since local
midnight). -/
structure Schedule where
  openSecs : ℚ
  closeSecs : ℚ
  deriving DecidableEq, Repr

/-- A local wall-clock instant: weekday (0 = Monday) and seconds since local
midnight, rational so that sub-second precision is represented. -/
structure Instant where
  weekday : Nat
  secs : ℚ
  deriving DecidableEq, Repr

/-- `ExchangeSchedule.is_market_day()`: Monday to Friday. -/
def isMarketDay (i : Instant) : Bool :=
  decide (i.weekday < 5)

/-- `ExchangeSchedule.is_open()`: market day and local time within
`[open_time, close_time]` (both ends inclusive in the source). -/
def isOpen (s : Schedule) (i : Instant) : Bool :=
  isMarketDay i && decide (s.openSecs ≤ i.secs ∧ i.secs ≤ s.closeSecs)

/-- `ExchangeSchedule.minutes_until_open()`: positive minutes until today's
open, `None` on a non-market day or once the open instant has passed. -/
def minutesUntilOpen (s : Schedule) (i : Instant) : Option ℚ :=
  if isMarketDay i = false then Option.none
  else
    let delta := (s.openSecs - i.secs) / 60
    if 0 < delta then some delta else Option.none

/-- `ExchangeSchedule.minutes_until_close()`: minutes until close while the
market is open, `None` otherwise. -/
def minutesUntilClose (s : Schedule) (i : Instant) : Option ℚ :=
  if isOpen s i = false then Option.none
  else some ((s.closeSecs - i.secs) / 60)

/-- `ExchangeSchedule.minutes_since_open()`: minutes since open while the
market is open, `None` otherwise. -/
def minutesSinceOpen (s : Schedule) (i : Instant) : Option ℚ :=
  if isOpen s i = false then Option.none
  else some ((i.secs - s.openSecs) / 60)

/-- `ExchangeSchedule.is_pre_market_window(minutes_before)`. -/
def isPreMarketWindow (s : Schedule) (i : Instant) (minutesBefore : ℚ) : Bool :=
  match minutesUntilOpen s i with
  | Option.none => false
  | some m => decide (0 < m ∧ m ≤ minutesBefore)

/-- `ExchangeSchedule.is_orb_window(orb_minutes)`. -/
def isOrbWindow (s : Schedule) (i : Instant) (orbMinutes : ℚ) : Bool :=
  match minutesSinceOpen s i with
  | Option.none => false
  | some m => decide (0 ≤ m ∧ m ≤ orbMinutes)

/-- `ExchangeSchedule.is_closing_window(minutes_before)`. -/
def isClosingWindow (s : Schedule) (i : Instant) (minutesBefore : ℚ) : Bool :=
  match minutesUntilClose s i with
  | Option.none => false
  | some m => decide (0 < m ∧ m ≤ minutesBefore)

/-- The prebuilt NYSE schedule: 09:30-16:00 local. -/
def nyse : Schedule :=
  { openSecs := 34200, closeSecs := 57600 }

/-- The prebuilt LSE schedule: 08:00-16:30 local. -/
def lse : Schedule :=
  { openSecs := 28800, closeSecs := 59400 }

end Trading

namespace Trading

/-- The `Position` constructed in `TradingBot._enter_position` once the
broker has confirmed the bracket order (`current_price` starts at the
entry quote, status OPEN, no close data). -/
def mkEntryPosition (symbol exchange : String) (side : PositionSide)
    (price : ℚ) (qty : ℤ) (stopLoss takeProfit : ℚ) (oid : String)
    (dbId : Option Nat) (now : ℚ) : Position :=
  { symbol := symbol
    exchange := exchange
    side := side
    entryPrice := price
    quantity := (qty : ℚ)
    stopLoss := stopLoss
    takeProfit := takeProfit
    entryTime := now
    orderId := some oid
    currentPrice := price
    status := PositionStatus.opened
    closePrice := Option.none
    closeTime := Option.none
    closeReason := Option.none
    dbTradeId := dbId }

/-- `TradingBot._enter_position(symbol, exchange, signal)`.  Collaborator
calls are explicit inputs: `quote` is `broker.get_quote(symbol)`,
`orbEstablished`/`orbStop` stand for `strategy.is_established(symbol)` and
`strategy.orb_stop_loss(symbol, side)` of the ORB strategy, `orderResult`
is the handle returned by `broker.place_bracket_order` (`None` on
rejection or a raised confirmation error), `dbId` is the row id from
`trade_db.open_trade`, and `now` is `datetime.utcnow()`.  The function
returns the updated position table; notifications, logging and the
snapshot write do not affect it. -/
def enterPosition (positions : List (String × Position)) (risk : RiskState)
    (orbEstablished : Bool) (orbStop : Option ℚ) (symbol exchange : String)
    (signal : Signal) (quote : Option ℚ) (orderResult : Option String)
    (dbId : Option Nat) (now : ℚ) : List (String × Position) :=
  let side := if signal = Signal.long then PositionSide.long else PositionSide.short
  match quote with
  | Option.none => positions
  | some price =>
    if price ≤ 0 then positions
    else
      let qty := calculateQuantity risk price
      if qty ≤ 0 then positions
      else
        let stopLoss :=
          if orbEstablished then (orbStop.getD (stopLossPrice risk price side))
          else stopLossPrice risk price side
        let takeProfit := takeProfitPrice risk price side
        match orderResult with
        | Option.none => positions
        | some oid =>
          setA symbol
            (mkEntryPosition symbol exchange side price qty stopLoss takeProfit oid dbId now)
            positions

/-- One row of the SQLite trade history, as written by
`trade_db.close_trade`. -/
structure CloseRecord where
  tradeId : Nat
  closePrice : ℚ
  closeTime : ℚ
  closeReason : String
  entryTime : ℚ
  realizedPnl : ℚ
  cost : ℚ
  deriving DecidableEq, Repr

/-- The orchestrator state that `TradingBot._exit_position` touches:
the position table, the risk manager, and the trade history. -/
structure BotState where
  positions : List (String × Position)
  risk : RiskState
  history : List CloseRecord
  deriving DecidableEq, Repr

/-- `TradingBot._exit_position(symbol, price, reason)`: no-op unless an
OPEN position is stored for `symbol`; `closeSuccess` is the boolean result
of `broker.close_position(symbol)`; on failure nothing changes (the
failure is only logged), on success the position is closed, the realized
P&L is recorded in the risk manager, and a history row is appended when
the position carries a DB row id. -/
def exitPosition (st : BotState) (symbol : String) (price : ℚ) (reason : String)
    (closeSuccess : Bool) (now : ℚ) : BotState :=
  match lookupA symbol st.positions with
  | Option.none => st
  | some pos =>
    if pos.status ≠ PositionStatus.opened then st
    else if closeSuccess then
      let pos' := pos.closeAt price now reason
      let pnl := (pos'.realizedPnl).getD 0
      { positions := setA symbol pos' st.positions
        risk := recordRealizedPnl st.risk pnl
        history :=
          match pos'.dbTradeId with
          | some tid =>
            st.history ++
              [{ tradeId := tid, closePrice := price, closeTime := now,
                 closeReason := reason, entryTime := pos.entryTime,
                 realizedPnl := pnl, cost := pos.entryPrice * pos.quantity }]
          | Option.none => st.history }
    else st

end Trading

namespace Crypto

open Trading (RiskState PositionStatus CloseRecord lookupA setA
  recordRealizedPnl cryptoCalculateQuantity pyRound)

/-- `crypto_trading_bot_hassio_addon/trading/position.py`: the crypto
`Position` dataclass.  The crypto `PositionSide` enum has the single value
LONG, so no side field is modelled. -/
structure CPosition where
  symbol : String
  entryPrice : ℚ
  quantity : ℚ
  stopLoss : ℚ
  takeProfit : ℚ
  entryTime : ℚ
  orderId : Option String
  ocoOrderListId : Option String
  currentPrice : ℚ
  status : PositionStatus
  closePrice : Option ℚ
  closeTime : Option ℚ
  closeReason : Option String
  dbTradeId : Option Nat
  deriving DecidableEq, Repr

/-- Crypto `Position.cost_usdt`. -/
def CPosition.costUsdt (p : CPosition) : ℚ :=
  p.entryPrice * p.quantity

/-- Crypto `Position.realized_pnl` (long only). -/
def CPosition.realizedPnl (p : CPosition) : Option ℚ :=
  match p.closePrice with
  | Option.none => Option.none
  | some c => some ((c - p.entryPrice) * p.quantity)

/-- Crypto `Position.close(price, reason)`. -/
def CPosition.closeAt (p : CPosition) (price : ℚ) (now : ℚ) (reason : String) : CPosition :=
  { p with
    closePrice := some price
    closeTime := some now
    closeReason := some reason
    status := PositionStatus.closed }

/-- The dict returned by `BinanceBroker.place_bracket_order` (`None` on
failure): optional fill price, order id and OCO list id. -/
structure COrderResult where
  fillPrice : Option ℚ
  orderId : Option String
  ocoOrderListId : Option String
  deriving DecidableEq, Repr

/-- The `Position` constructed in `CryptoTradingBot._enter_position` after
the broker confirmed the bracket order. -/
def mkCEntryPosition (symbol : String) (fillPrice qty stopLoss takeProfit : ℚ)
    (res : COrderResult) (dbId : Option Nat) (now : ℚ) : CPosition :=
  { symbol := symbol
    entryPrice := fillPrice
    quantity := qty
    stopLoss := stopLoss
    takeProfit := takeProfit
    entryTime := now
    orderId := res.orderId
    ocoOrderListId := res.ocoOrderListId
    currentPrice := fillPrice
    status := PositionStatus.opened
    closePrice := Option.none
    closeTime := Option.none
    closeReason := Option.none
    dbTradeId := dbId }

/-- `CryptoTradingBot._enter_position(symbol)`.  `quote` is
`broker.get_quote`, `stepSize`/`minQty` come from
`broker.get_symbol_info`, `buyingPower` from `broker.get_buying_power`,
`orderResult` is the `place_bracket_order` response, `dbId` the
`trade_db.open_trade` row id.  The guard `not price or price <= 0`
collapses to `price ≤ 0` on rationals. -/
def cryptoEnterPosition (positions : List (String × CPosition)) (risk : RiskState)
    (symbol : String) (quote : Option ℚ) (stepSize minQty buyingPower : ℚ)
    (orderResult : Option COrderResult) (dbId : Option Nat) (now : ℚ) :
    List (String × CPosition) :=
  match quote with
  | Option.none => positions
  | some price =>
    if price ≤ 0 then positions
    else
      let qty := cryptoCalculateQuantity risk price stepSize
      if qty ≤ 0 ∨ qty < minQty then positions
      else if buyingPower < qty * price then positions
      else
        let stopLoss := pyRound (price * (1 - risk.stopLossPct)) 8
        let takeProfit := pyRound (price * (1 + risk.takeProfitPct)) 8
        match orderResult with
        | Option.none => positions
        | some res =>
          let fillPrice := res.fillPrice.getD price
          setA symbol
            (mkCEntryPosition symbol fillPrice qty stopLoss takeProfit res dbId now)
            positions

/-- The orchestrator state `CryptoTradingBot._exit_position` touches:
position table, risk manager, trade history and the per-symbol re-entry
cooldown map. -/
structure CBotState where
  positions : List (String × CPosition)
  risk : RiskState
  history : List CloseRecord
  cooldowns : List (String × ℚ)
  deriving DecidableEq, Repr

/-- `CryptoTradingBot._exit_position(symbol, price, reason)`: no-op unless
an OPEN position is stored; `closeSuccess` is the result of
`broker.close_position`; on success `_record_closed_position` closes the
position in place, stamps the cooldown, records the realized P&L and
appends the history row. -/
def cryptoExitPosition (st : CBotState) (symbol : String) (price : ℚ) (reason : String)
    (closeSuccess : Bool) (now : ℚ) : CBotState :=
  match lookupA symbol st.positions with
  | Option.none => st
  | some pos =>
    if pos.status ≠ PositionStatus.opened then st
    else if closeSuccess then
      let pos' := pos.closeAt price now reason
      let pnl := (pos'.realizedPnl).getD 0
      { positions := setA symbol pos' st.positions
        risk := recordRealizedPnl st.risk pnl
        history :=
          match pos'.dbTradeId with
          | some tid =>
            st.history ++
              [{ tradeId := tid, closePrice := price, closeTime := now,
                 closeReason := reason, entryTime := pos.entryTime,
                 realizedPnl := pnl, cost := pos.costUsdt }]
          | Option.none => st.history
        cooldowns := setA pos.symbol now st.cooldowns }
    else st

end Crypto

namespace Trading

/-- A position whose quote has never been observed (`current_price = 0`),
as produced by `Position.from_dict` defaults or before the first tick. -/
def posZeroQuote : Position :=
  { symbol := "AAPL.US", exchange := "NYSE", side := PositionSide.long,
    entryPrice := 100, quantity := 10, stopLoss := 95, takeProfit := 105,
    entryTime := 0, orderId := some "o1", currentPrice := 0,
    status := PositionStatus.opened, closePrice := Option.none,
    closeTime := Option.none, closeReason := Option.none, dbTradeId := Option.none }

/-- LONG entry=100, qty=10, current=110 (spec's first P&L example). -/
def posLong110 : Position :=
  { posZeroQuote with currentPrice := 110 }

/-- SHORT entry=100, qty=10, current=90 (spec's second P&L example). -/
def posShort90 : Position :=
  { posZeroQuote with side := PositionSide.short, currentPrice := 90 }

/-- SHORT entry=100, qty=10, current=110 (spec's third P&L example). -/
def posShort110 : Position :=
  { posZeroQuote with side := PositionSide.short, currentPrice := 110 }

/-- A risk manager with no daily baseline snapshotted yet. -/
def riskNoBaseline : RiskState :=
  { maxPositionValue := 1000, stopLossPct := 1/50, takeProfitPct := 1/25,
    maxDailyLossPct := 3/100, initialPortfolioValue := Option.none,
    dailyRealizedPnl := 0, tradingHalted := false }

/-- A risk manager with a 1000 baseline and a 10% daily loss limit. -/
def riskBase1000 : RiskState :=
  { riskNoBaseline with initialPortfolioValue := some 1000, maxDailyLossPct := 1/10 }

end Trading

namespace Trading

theorem shouldHaltTrading_of_halted (r : RiskState) (c : ℚ) (h : r.tradingHalted = true) :
    shouldHaltTrading r c = (r, true) := by
  simp [shouldHaltTrading, h]

theorem tradingHalted_of_shouldHaltTrading (r : RiskState) (c : ℚ)
    (h : (shouldHaltTrading r c).2 = true) :
    (shouldHaltTrading r c).1.tradingHalted = true := by
  unfold shouldHaltTrading at *
  by_cases hh : r.tradingHalted
  · simp [hh]
  · rcases hr : r.initialPortfolioValue with _ | init
    · simp [hh, hr] at h
    · by_cases h0 : init = 0
      · simp [hh, hr, h0] at h
      · by_cases hl : r.maxDailyLossPct ≤ (init - c) / init
        · simp [hh, hr, h0, hl]
        · simp [hh, hr, h0, hl] at h

theorem haltResults_of_halted (r : RiskState) (es : List ℚ) (h : r.tradingHalted = true) :
    ∀ k, k < es.length → (haltResults r es).getD k false = true := by
  induction es generalizing r with
  | nil => intro k hk; simp at hk
  | cons c rest ih =>
    intro k hk
    rw [haltResults, shouldHaltTrading_of_halted r c h]
    cases k with
    | zero => simp
    | succ k' =>
      simp only [List.getD_cons_succ]
      exact ih r h k' (by simpa using hk)

/-- C3.  Risk-halt is sticky within a day: in any sequence of
`should_halt_trading` calls (no `reset_daily` / `set_initial_portfolio_value`
in between), once a call returns true every later call returns true; and a
single call returns true exactly when the manager is already halted or the
loss fraction `(initial - current)/initial` has reached
`max_daily_loss_pct` (for a set, non-zero baseline). -/
theorem c3_halt_sticky_monotone :
    (∀ (r : RiskState) (es : List ℚ) (i j : Nat), i ≤ j → j < es.length →
        (haltResults r es).getD i false = true →
        (haltResults r es).getD j false = true)
  ∧ (∀ (r : RiskState) (c init : ℚ), r.initialPortfolioValue = some init → init ≠ 0 →
        ((shouldHaltTrading r c).2 = true ↔
          (r.tradingHalted = true ∨ r.maxDailyLossPct ≤ (init - c) / init))) := by
  constructor
  · intro r es
    induction es generalizing r with
    | nil => intro i j _ hj; simp at hj
    | cons c rest ih =>
      intro i j hij hj hi
      cases i with
      | zero =>
        rw [haltResults] at hi
        simp only [List.getD_cons_zero] at hi
        have hhalt := tradingHalted_of_shouldHaltTrading r c hi
        cases j with
        | zero => rw [haltResults]; simpa using hi
        | succ j' =>
          rw [haltResults]
          simp only [List.getD_cons_succ]
          exact haltResults_of_halted _ rest hhalt j' (by simpa using hj)
      | succ i' =>
        cases j with
        | zero => omega
        | succ j' =>
          rw [haltResults] at hi ⊢
          simp only [List.getD_cons_succ] at hi ⊢
          exact ih _ i' j' (by omega) (by simpa using hj) hi
  · intro r c init hinit h0
    by_cases hh : r.tradingHalted
    · simp [shouldHaltTrading, hh]
    · by_cases hl : r.maxDailyLossPct ≤ (init - c) / init
      · simp [shouldHaltTrading, hh, hinit, h0, hl]
      · simp [shouldHaltTrading, hh, hinit, h0, hl]

/-- C3 witness: with baseline 1000 and a 10% limit, equity 850 halts
(15% loss), and the next call returns true although equity has recovered
to 2000. -/
theorem c3_halt_sticky_monotone_witness :
    (haltResults riskBase1000 [850, 2000]).getD 1 false = true :=
  c3_halt_sticky_monotone.1 riskBase1000 [850, 2000] 0 1 (by omega) (by simp)
    (by norm_num [haltResults, shouldHaltTrading, riskBase1000, riskNoBaseline])

/-- C10.  Before a non-zero daily baseline is snapshotted
(`initial_portfolio_value` is `None` or `0`) and while not already halted,
`should_halt_trading` returns false and leaves the manager unchanged: the
daily-loss kill-switch cannot fire and the division by the baseline is
never reached (the method returns before it). -/
theorem c10_halt_guarded_before_baseline (r : RiskState) (c : ℚ)
    (h1 : r.tradingHalted = false)
    (h2 : r.initialPortfolioValue = Option.none ∨ r.initialPortfolioValue = some 0) :
    shouldHaltTrading r c = (r, false) := by
  rcases h2 with h2 | h2 <;> simp [shouldHaltTrading, h1, h2]

/-- C10 witness: a fresh manager with no baseline ignores any equity. -/
theorem c10_halt_guarded_before_baseline_witness :
    shouldHaltTrading riskNoBaseline 123 = (riskNoBaseline, false) :=
  c10_halt_guarded_before_baseline riskNoBaseline 123 rfl (Or.inl rfl)

/-- C5 (amended).  P&L formulas hold whenever a quote has been observed:
for `current_price ≠ 0` the unrealized P&L is `(current - entry) * qty`
for LONG and `(entry - current) * qty` for SHORT, while `current_price = 0`
yields the sentinel 0; the realized P&L applies the same formula to
`close_price` unconditionally and is `None` while `close_price` is unset. -/
theorem c5_pnl_formulas (p : Position) :
    (p.currentPrice = 0 → p.unrealizedPnl = 0)
  ∧ (p.currentPrice ≠ 0 → p.side = PositionSide.long →
      p.unrealizedPnl = (p.currentPrice - p.entryPrice) * p.quantity)
  ∧ (p.currentPrice ≠ 0 → p.side = PositionSide.short →
      p.unrealizedPnl = (p.entryPrice - p.currentPrice) * p.quantity)
  ∧ (p.closePrice = Option.none → p.realizedPnl = Option.none)
  ∧ (∀ c, p.closePrice = some c → p.side = PositionSide.long →
      p.realizedPnl = some ((c - p.entryPrice) * p.quantity))
  ∧ (∀ c, p.closePrice = some c → p.side = PositionSide.short →
      p.realizedPnl = some ((p.entryPrice - c) * p.quantity)) := by
  refine ⟨fun h => by simp [Position.unrealizedPnl, h],
          fun h hs => by simp [Position.unrealizedPnl, h, hs],
          fun h hs => by simp [Position.unrealizedPnl, h, hs],
          fun h => by simp [Position.realizedPnl, h],
          fun c h hs => by simp [Position.realizedPnl, h, hs],
          fun c h hs => by simp [Position.realizedPnl, h, hs]⟩

/-- C5 counterexample: a LONG position with entry=100, qty=10 and no
observed quote (`current_price = 0`) has unrealized P&L 0, not
`(0 - 100) * 10 = -1000`, so the unconditional formula of the claim fails. -/
theorem c5_pnl_zero_quote_counterexample :
    posZeroQuote.side = PositionSide.long ∧
    posZeroQuote.unrealizedPnl ≠
      (posZeroQuote.currentPrice - posZeroQuote.entryPrice) * posZeroQuote.quantity := by
  constructor
  · rfl
  · norm_num [Position.unrealizedPnl, posZeroQuote]

/-- C5 witness: the spec's three sign examples, via the amended formulas. -/
theorem c5_pnl_formulas_witness :
    posLong110.unrealizedPnl = 100 ∧ posShort90.unrealizedPnl = 100 ∧
    posShort110.unrealizedPnl = -100 := by
  refine ⟨?_, ?_, ?_⟩
  · rw [(c5_pnl_formulas posLong110).2.1 (by norm_num [posLong110, posZeroQuote]) rfl]
    norm_num [posLong110, posZeroQuote]
  · rw [(c5_pnl_formulas posShort90).2.2.1 (by norm_num [posShort90, posZeroQuote]) rfl]
    norm_num [posShort90, posZeroQuote]
  · rw [(c5_pnl_formulas posShort110).2.2.1 (by norm_num [posShort110, posZeroQuote]) rfl]
    norm_num [posShort110, posZeroQuote]

/-- C9.  Zero-quote sentinel: while `current_price = 0`, the unrealized
P&L is 0 and neither the stop-loss nor the take-profit trigger fires,
whatever the side and levels are. -/
theorem c9_zero_quote_sentinel (p : Position) (h : p.currentPrice = 0) :
    p.unrealizedPnl = 0 ∧ p.isStopLossHit = false ∧ p.isTakeProfitHit = false := by
  refine ⟨by simp [Position.unrealizedPnl, h], ?_, ?_⟩ <;>
    simp [Position.isStopLossHit, Position.isTakeProfitHit, h]

/-- C9 witness: the sentinel on a concrete quoteless position whose levels
would otherwise both fire for a LONG (stop 95 below, target 105 above). -/
theorem c9_zero_quote_sentinel_witness :
    posZeroQuote.unrealizedPnl = 0 ∧ posZeroQuote.isStopLossHit = false ∧
    posZeroQuote.isTakeProfitHit = false :=
  c9_zero_quote_sentinel posZeroQuote rfl

theorem foldl_max_fst_init_le (bars : List (ℚ × ℚ)) (a : ℚ) :
    a ≤ bars.foldl (fun acc b => max acc b.1) a := by
  induction bars generalizing a with
  | nil => simp
  | cons b bs ih =>
    simpa using le_trans (le_max_left a b.1) (ih (max a b.1))

theorem foldl_max_fst_mem_le (bars : List (ℚ × ℚ)) (a : ℚ) (x : ℚ × ℚ) (hx : x ∈ bars) :
    x.1 ≤ bars.foldl (fun acc b => max acc b.1) a := by
  induction bars generalizing a with
  | nil => cases hx
  | cons b bs ih =>
    rw [List.foldl_cons]
    rcases List.mem_cons.mp hx with rfl | hx'
    · exact le_trans (le_max_right a x.1) (foldl_max_fst_init_le bs _)
    · exact ih _ hx'

theorem foldl_max_fst_mem (bars : List (ℚ × ℚ)) (a : ℚ) :
    bars.foldl (fun acc b => max acc b.1) a = a ∨
    bars.foldl (fun acc b => max acc b.1) a ∈ bars.map Prod.fst := by
  induction bars generalizing a with
  | nil => left; rfl
  | cons b bs ih =>
    rw [List.foldl_cons]
    rcases ih (max a b.1) with h | h
    · rcases max_choice a b.1 with h' | h'
      · left; rw [h, h']
      · right; rw [h, h']; simp
    · right
      simp only [List.map_cons, List.mem_cons]
      exact Or.inr h

theorem foldl_min_snd_le_init (bars : List (ℚ × ℚ)) (a : ℚ) :
    bars.foldl (fun acc b => min acc b.2) a ≤ a := by
  induction bars generalizing a with
  | nil => simp
  | cons b bs ih =>
    simpa using le_trans (ih (min a b.2)) (min_le_left a b.2)

theorem foldl_min_snd_le_mem (bars : List (ℚ × ℚ)) (a : ℚ) (x : ℚ × ℚ) (hx : x ∈ bars) :
    bars.foldl (fun acc b => min acc b.2) a ≤ x.2 := by
  induction bars generalizing a with
  | nil => cases hx
  | cons b bs ih =>
    rw [List.foldl_cons]
    rcases List.mem_cons.mp hx with rfl | hx'
    · exact le_trans (foldl_min_snd_le_init bs _) (min_le_right a x.2)
    · exact ih _ hx'

theorem foldl_min_snd_mem (bars : List (ℚ × ℚ)) (a : ℚ) :
    bars.foldl (fun acc b => min acc b.2) a = a ∨
    bars.foldl (fun acc b => min acc b.2) a ∈ bars.map Prod.snd := by
  induction bars generalizing a with
  | nil => left; rfl
  | cons b bs ih =>
    rw [List.foldl_cons]
    rcases ih (min a b.2) with h | h
    · rcases min_choice a b.2 with h' | h'
      · left; rw [h, h']
      · right; rw [h, h']; simp
    · right
      simp only [List.map_cons, List.mem_cons]
      exact Or.inr h

theorem lookupA_updateOrbMany_some (bars : List (ℚ × ℚ)) (st : ORBState)
    (symbol : String) (h l : ℚ) (hst : lookupA symbol st.orb = some (h, l)) :
    lookupA symbol (updateOrbMany st symbol bars).orb =
      some (bars.foldl (fun acc b => max acc b.1) h,
            bars.foldl (fun acc b => min acc b.2) l) := by
  induction bars generalizing st h l with
  | nil => simpa [updateOrbMany] using hst
  | cons b bs ih =>
    have hstep : lookupA symbol (updateOrb st symbol b.1 b.2).orb =
        some (max h b.1, min l b.2) := by
      simp [updateOrb, hst]
    have := ih (updateOrb st symbol b.1 b.2) (max h b.1) (min l b.2) hstep
    simpa [updateOrbMany] using this

/-- C7.  ORB accumulation computes the running extrema: starting from a
reset state (no stored range for the symbol), after any non-empty sequence
of `update_orb(symbol, high, low)` calls the stored high is the maximum of
the observed highs and the stored low is the minimum of the observed lows
(each is attained by some bar and bounds every bar). -/
theorem c7_orb_accumulates_extrema (st : ORBState) (symbol : String)
    (b : ℚ × ℚ) (bars : List (ℚ × ℚ))
    (hnone : lookupA symbol st.orb = Option.none) :
    ∃ hi lo, orbHighOf (updateOrbMany st symbol (b :: bars)) symbol = some hi
      ∧ orbLowOf (updateOrbMany st symbol (b :: bars)) symbol = some lo
      ∧ hi ∈ (b :: bars).map Prod.fst ∧ lo ∈ (b :: bars).map Prod.snd
      ∧ ∀ x ∈ b :: bars, x.1 ≤ hi ∧ lo ≤ x.2 := by
  have hstep : lookupA symbol (updateOrb st symbol b.1 b.2).orb = some (b.1, b.2) := by
    simp [updateOrb, hnone]
  have hmain := lookupA_updateOrbMany_some bars (updateOrb st symbol b.1 b.2)
    symbol b.1 b.2 hstep
  have hfold : updateOrbMany st symbol (b :: bars) =
      updateOrbMany (updateOrb st symbol b.1 b.2) symbol bars := by
    simp [updateOrbMany]
  refine ⟨bars.foldl (fun acc x => max acc x.1) b.1,
          bars.foldl (fun acc x => min acc x.2) b.2, ?_, ?_, ?_, ?_, ?_⟩
  · rw [orbHighOf, hfold, hmain]; rfl
  · rw [orbLowOf, hfold, hmain]; rfl
  · rcases foldl_max_fst_mem bars b.1 with h | h
    · simp [h]
    · simp only [List.map_cons, List.mem_cons]
      exact Or.inr h
  · rcases foldl_min_snd_mem bars b.2 with h | h
    · simp [h]
    · simp only [List.map_cons, List.mem_cons]
      exact Or.inr h
  · intro x hx
    rcases List.mem_cons.mp hx with rfl | hx'
    · exact ⟨foldl_max_fst_init_le bars x.1, foldl_min_snd_le_init bars x.2⟩
    · exact ⟨foldl_max_fst_mem_le bars b.1 x hx', foldl_min_snd_le_mem bars b.2 x hx'⟩

/-- A fresh ORB strategy state (no accumulated ranges). -/
def orbEmptyState : ORBState :=
  { orbMinutes := 15, volumeMultiplier := 3/2, orb := [], established := [] }

/-- C7 witness: three bars fed from a reset state. -/
theorem c7_orb_accumulates_extrema_witness :
    ∃ hi lo,
      orbHighOf (updateOrbMany orbEmptyState "AAPL.US" [(11, 10), (12, 21/2), (23/2, 19/2)])
        "AAPL.US" = some hi
      ∧ orbLowOf (updateOrbMany orbEmptyState "AAPL.US" [(11, 10), (12, 21/2), (23/2, 19/2)])
        "AAPL.US" = some lo
      ∧ hi ∈ ([(11, 10), (12, 21/2), (23/2, 19/2)] : List (ℚ × ℚ)).map Prod.fst
      ∧ lo ∈ ([(11, 10), (12, 21/2), (23/2, 19/2)] : List (ℚ × ℚ)).map Prod.snd
      ∧ ∀ x ∈ ([(11, 10), (12, 21/2), (23/2, 19/2)] : List (ℚ × ℚ)), x.1 ≤ hi ∧ lo ≤ x.2 :=
  c7_orb_accumulates_extrema orbEmptyState "AAPL.US" (11, 10) [(12, 21/2), (23/2, 19/2)] rfl

/-- C6.  ORB breakout evaluation is exact: for an unestablished symbol the
signal is always NONE; for an established symbol with stored range
`[low, high]` (`low ≤ high`) and no volume filter (`avg_volume = 0`), the
signal is LONG exactly when the price is strictly above the high, SHORT
exactly when strictly below the low, and NONE exactly on or inside the
range. -/
theorem c6_orb_breakout_exact :
    (∀ (st : ORBState) (symbol : String) (price cv av : ℚ),
        symbol ∉ st.established → checkSignal st symbol price cv av = Signal.none)
  ∧ (∀ (st : ORBState) (symbol : String) (price vol high low : ℚ),
        symbol ∈ st.established → lookupA symbol st.orb = some (high, low) →
        low ≤ high →
        (checkSignal st symbol price vol 0 = Signal.long ↔ high < price)
      ∧ (checkSignal st symbol price vol 0 = Signal.short ↔ price < low)
      ∧ (checkSignal st symbol price vol 0 = Signal.none ↔ low ≤ price ∧ price ≤ high)) := by
  constructor
  · intro st symbol price cv av h
    simp [checkSignal, h]
  · intro st symbol price vol high low hmem hlook hle
    have hnm : ¬symbol ∉ st.established := by simpa using hmem
    by_cases h1 : high < price
    · have h2 : ¬price < low := by linarith
      have hsig : checkSignal st symbol price vol 0 = Signal.long := by
        simp [checkSignal, hnm, hlook, h1]
      rw [hsig]
      refine ⟨⟨fun _ => h1, fun _ => rfl⟩, ?_, ?_⟩
      · exact ⟨fun hcon => absurd hcon (by decide), fun hp => absurd hp h2⟩
      · exact ⟨fun hcon => absurd hcon (by decide),
               fun hp => absurd hp.2 (not_le.mpr h1)⟩
    · by_cases h2 : price < low
      · have hsig : checkSignal st symbol price vol 0 = Signal.short := by
          simp [checkSignal, hnm, hlook, h1, h2]
        rw [hsig]
        refine ⟨?_, ⟨fun _ => h2, fun _ => rfl⟩, ?_⟩
        · exact ⟨fun hcon => absurd hcon (by decide), fun hp => absurd hp h1⟩
        · exact ⟨fun hcon => absurd hcon (by decide),
                 fun hp => absurd hp.1 (not_le.mpr h2)⟩
      · have hsig : checkSignal st symbol price vol 0 = Signal.none := by
          simp [checkSignal, hnm, hlook, h1, h2]
        rw [hsig]
        refine ⟨?_, ?_, ⟨fun _ => ⟨not_lt.mp h2, not_lt.mp h1⟩, fun _ => rfl⟩⟩
        · exact ⟨fun hcon => absurd hcon (by decide), fun hp => absurd hp h1⟩
        · exact ⟨fun hcon => absurd hcon (by decide), fun hp => absurd hp h2⟩

theorem secs_lt_open_of_preMarket (s : Schedule) (i : Instant) (n : ℚ)
    (h : isPreMarketWindow s i n = true) : i.secs < s.openSecs := by
  unfold isPreMarketWindow minutesUntilOpen at h
  by_cases hm : isMarketDay i = false
  · simp [hm] at h
  · simp only [hm, if_false] at h
    split_ifs at h <;> simp_all

theorem isOpen_bounds (s : Schedule) (i : Instant) (h : isOpen s i = true) :
    s.openSecs ≤ i.secs ∧ i.secs ≤ s.closeSecs := by
  unfold isOpen at h
  simp only [Bool.and_eq_true, decide_eq_true_eq] at h
  exact h.2

theorem orbWindow_bounds (s : Schedule) (i : Instant) (m : ℚ)
    (h : isOrbWindow s i m = true) :
    isOpen s i = true ∧ (i.secs - s.openSecs) / 60 ≤ m := by
  unfold isOrbWindow minutesSinceOpen at h
  by_cases ho : isOpen s i = false
  · simp [ho] at h
  · have ho' : isOpen s i = true := by
      cases hv : isOpen s i
      · exact absurd hv ho
      · rfl
    simp only [ho', Bool.true_eq_false, if_false, decide_eq_true_eq] at h
    exact ⟨ho', h.2⟩

theorem closingWindow_bounds (s : Schedule) (i : Instant) (k : ℚ)
    (h : isClosingWindow s i k = true) :
    isOpen s i = true ∧ (s.closeSecs - i.secs) / 60 ≤ k := by
  unfold isClosingWindow minutesUntilClose at h
  by_cases ho : isOpen s i = false
  · simp [ho] at h
  · have ho' : isOpen s i = true := by
      cases hv : isOpen s i
      · exact absurd hv ho
      · rfl
    simp only [ho', Bool.true_eq_false, if_false, decide_eq_true_eq] at h
    exact ⟨ho', h.2⟩

/-- C8 (amended).  The pre-market window is mutually exclusive with the
ORB window and with the closing window at every instant and for all
configured durations; the ORB and closing windows are mutually exclusive
whenever the configured durations fit inside the session, i.e.
`orb_minutes + close_minutes` is less than the open-to-close span in
minutes (for larger configurations the two windows overlap). -/
theorem c8_windows_exclusive (s : Schedule) (i : Instant) (n m k : ℚ) :
    ¬(isPreMarketWindow s i n = true ∧ isOrbWindow s i m = true)
  ∧ ¬(isPreMarketWindow s i n = true ∧ isClosingWindow s i k = true)
  ∧ (m + k < (s.closeSecs - s.openSecs) / 60 →
      ¬(isOrbWindow s i m = true ∧ isClosingWindow s i k = true)) := by
  have h60 : (0 : ℚ) < 60 := by norm_num
  refine ⟨?_, ?_, ?_⟩
  · rintro ⟨hp, ho⟩
    have h1 := secs_lt_open_of_preMarket s i n hp
    have h2 := (isOpen_bounds s i (orbWindow_bounds s i m ho).1).1
    linarith
  · rintro ⟨hp, hc⟩
    have h1 := secs_lt_open_of_preMarket s i n hp
    have h2 := (isOpen_bounds s i (closingWindow_bounds s i k hc).1).1
    linarith
  · intro hfit
    rintro ⟨ho, hc⟩
    have h1 := (orbWindow_bounds s i m ho).2
    have h2 := (closingWindow_bounds s i k hc).2
    have h1' := (div_le_iff₀ h60).mp h1
    have h2' := (div_le_iff₀ h60).mp h2
    have hfit' := (lt_div_iff₀ h60).mp hfit
    linarith

/-- 13:00 local on a Monday (46800 seconds since midnight). -/
def nyseMidday : Instant :=
  { weekday := 0, secs := 46800 }

/-- C8 counterexample: on the NYSE schedule (09:30-16:00, a 390-minute
session) at Monday 13:00 local, `is_orb_window(220)` and
`is_closing_window(200)` are both true, so the three windows are not
pairwise mutually exclusive for every choice of the configured durations. -/
theorem c8_windows_exclusive_counterexample :
    isOrbWindow nyse nyseMidday 220 = true ∧
    isClosingWindow nyse nyseMidday 200 = true := by
  constructor <;>
    norm_num [isOrbWindow, isClosingWindow, minutesSinceOpen, minutesUntilClose,
      isOpen, isMarketDay, nyse, nyseMidday]

/-- C8 witness: with the default-sized windows (15-minute ORB, 20-minute
close, well inside the 390-minute NYSE session) the ORB and closing
windows cannot both be active. -/
theorem c8_windows_exclusive_witness :
    ¬(isOrbWindow nyse nyseMidday 15 = true ∧ isClosingWindow nyse nyseMidday 20 = true) :=
  (c8_windows_exclusive nyse nyseMidday 0 15 20).2.2 (by norm_num [nyse])

/-- C1.  Entry is atomic with respect to broker rejection, in both bots:
if the quote is unavailable or non-positive, or the computed quantity
fails the size guards, or `place_bracket_order` returns no handle
(rejection or a raised confirmation error), the position table is
returned unchanged and no `Position` exists; when the broker confirms,
the table is exactly the old table with the new OPEN position inserted,
carrying the broker's handle. -/
theorem c1_entry_atomicity :
    (∀ (tbl : List (String × Position)) (risk : RiskState) (estab : Bool)
        (orbStop : Option ℚ) (symbol exchange : String) (signal : Signal)
        (quote : Option ℚ) (orderResult : Option String) (dbId : Option Nat) (now : ℚ),
        ((quote = Option.none ∨ (∃ p, quote = some p ∧ p ≤ 0) ∨
            (∃ p, quote = some p ∧ calculateQuantity risk p ≤ 0) ∨
            orderResult = Option.none) →
          enterPosition tbl risk estab orbStop symbol exchange signal quote
            orderResult dbId now = tbl)
      ∧ (∀ p oid, quote = some p → ¬p ≤ 0 → ¬calculateQuantity risk p ≤ 0 →
          orderResult = some oid →
          ∃ pos,
            enterPosition tbl risk estab orbStop symbol exchange signal quote
                orderResult dbId now = setA symbol pos tbl
            ∧ lookupA symbol (enterPosition tbl risk estab orbStop symbol exchange
                signal quote orderResult dbId now) = some pos
            ∧ pos.orderId = some oid ∧ pos.status = PositionStatus.opened
            ∧ pos.symbol = symbol ∧ pos.entryPrice = p
            ∧ pos.quantity = (calculateQuantity risk p : ℚ)))
  ∧ (∀ (tbl : List (String × Crypto.CPosition)) (risk : RiskState) (symbol : String)
        (quote : Option ℚ) (stepSize minQty buyingPower : ℚ)
        (orderResult : Option Crypto.COrderResult) (dbId : Option Nat) (now : ℚ),
        ((quote = Option.none ∨ (∃ p, quote = some p ∧ p ≤ 0) ∨
            (∃ p, quote = some p ∧
              (cryptoCalculateQuantity risk p stepSize ≤ 0 ∨
               cryptoCalculateQuantity risk p stepSize < minQty)) ∨
            (∃ p, quote = some p ∧
              buyingPower < cryptoCalculateQuantity risk p stepSize * p) ∨
            orderResult = Option.none) →
          Crypto.cryptoEnterPosition tbl risk symbol quote stepSize minQty buyingPower
            orderResult dbId now = tbl)
      ∧ (∀ p res, quote = some p → ¬p ≤ 0 →
          ¬(cryptoCalculateQuantity risk p stepSize ≤ 0 ∨
            cryptoCalculateQuantity risk p stepSize < minQty) →
          ¬buyingPower < cryptoCalculateQuantity risk p stepSize * p →
          orderResult = some res →
          ∃ pos,
            Crypto.cryptoEnterPosition tbl risk symbol quote stepSize minQty buyingPower
                orderResult dbId now = setA symbol pos tbl
            ∧ lookupA symbol (Crypto.cryptoEnterPosition tbl risk symbol quote stepSize
                minQty buyingPower orderResult dbId now) = some pos
            ∧ pos.orderId = res.orderId ∧ pos.ocoOrderListId = res.ocoOrderListId
            ∧ pos.status = PositionStatus.opened ∧ pos.symbol = symbol
            ∧ pos.quantity = cryptoCalculateQuantity risk p stepSize)) := by
  constructor
  · intro tbl risk estab orbStop symbol exchange signal quote orderResult dbId now
    constructor
    · intro h
      rcases h with h | ⟨p, rfl, hp⟩ | ⟨p, rfl, hq⟩ | h
      · subst h; simp [enterPosition]
      · simp [enterPosition, hp]
      · by_cases hp : p ≤ 0
        · simp [enterPosition, hp]
        · simp [enterPosition, hp, hq]
      · subst h
        rcases quote with _ | p
        · simp [enterPosition]
        · by_cases hp : p ≤ 0
          · simp [enterPosition, hp]
          · by_cases hq : calculateQuantity risk p ≤ 0
            · simp [enterPosition, hp, hq]
            · simp [enterPosition, hp, hq]
    · intro p oid hquote hp hq hord
      subst hquote; subst hord
      refine ⟨mkEntryPosition symbol exchange
        (if signal = Signal.long then PositionSide.long else PositionSide.short) p
        (calculateQuantity risk p)
        (if estab
          then (orbStop.getD (stopLossPrice risk p
            (if signal = Signal.long then PositionSide.long else PositionSide.short)))
          else stopLossPrice risk p
            (if signal = Signal.long then PositionSide.long else PositionSide.short))
        (takeProfitPrice risk p
          (if signal = Signal.long then PositionSide.long else PositionSide.short))
        oid dbId now, ?_, ?_, rfl, rfl, rfl, rfl, rfl⟩
      · simp [enterPosition, hp, hq]
      · simp [enterPosition, hp, hq]
  · intro tbl risk symbol quote stepSize minQty buyingPower orderResult dbId now
    constructor
    · intro h
      rcases h with h | ⟨p, rfl, hp⟩ | ⟨p, rfl, hq⟩ | ⟨p, rfl, hb⟩ | h
      · subst h; simp [Crypto.cryptoEnterPosition]
      · simp [Crypto.cryptoEnterPosition, hp]
      · by_cases hp : p ≤ 0
        · simp [Crypto.cryptoEnterPosition, hp]
        · simp [Crypto.cryptoEnterPosition, hp, hq]
      · by_cases hp : p ≤ 0
        · simp [Crypto.cryptoEnterPosition, hp]
        · by_cases hq : cryptoCalculateQuantity risk p stepSize ≤ 0 ∨
              cryptoCalculateQuantity risk p stepSize < minQty
          · simp [Crypto.cryptoEnterPosition, hp, hq]
          · simp [Crypto.cryptoEnterPosition, hp, hq, hb]
      · subst h
        rcases quote with _ | p
        · simp [Crypto.cryptoEnterPosition]
        · by_cases hp : p ≤ 0
          · simp [Crypto.cryptoEnterPosition, hp]
          · by_cases hq : cryptoCalculateQuantity risk p stepSize ≤ 0 ∨
                cryptoCalculateQuantity risk p stepSize < minQty
            · simp [Crypto.cryptoEnterPosition, hp, hq]
            · by_cases hb : buyingPower < cryptoCalculateQuantity risk p stepSize * p
              · simp [Crypto.cryptoEnterPosition, hp, hq, hb]
              · simp [Crypto.cryptoEnterPosition, hp, hq, hb]
    · intro p res hquote hp hq hb hord
      subst hquote; subst hord
      refine ⟨Crypto.mkCEntryPosition symbol (res.fillPrice.getD p)
        (cryptoCalculateQuantity risk p stepSize)
        (pyRound (p * (1 - risk.stopLossPct)) 8)
        (pyRound (p * (1 + risk.takeProfitPct)) 8) res dbId now, ?_, ?_, rfl, rfl, rfl, rfl, rfl⟩
      · simp [Crypto.cryptoEnterPosition, hp, hq, hb]
      · simp [Crypto.cryptoEnterPosition, hp, hq, hb]

/-- C1 witness: both bots confirm an order at a concrete input and record
exactly the inserted position. -/
theorem c1_entry_atomicity_witness :
    (∃ pos, enterPosition [] riskNoBaseline false Option.none "AAPL.US" "NYSE"
        Signal.long (some 100) (some "ord-1") (some 7) 0 = setA "AAPL.US" pos []
      ∧ lookupA "AAPL.US" (enterPosition [] riskNoBaseline false Option.none "AAPL.US"
          "NYSE" Signal.long (some 100) (some "ord-1") (some 7) 0) = some pos
      ∧ pos.orderId = some "ord-1" ∧ pos.status = PositionStatus.opened
      ∧ pos.symbol = "AAPL.US" ∧ pos.entryPrice = 100
      ∧ pos.quantity = (calculateQuantity riskNoBaseline 100 : ℚ))
  ∧ (enterPosition [] riskNoBaseline false Option.none "AAPL.US" "NYSE"
      Signal.long (some 100) Option.none (some 7) 0 = []) := by
  have hq : ¬calculateQuantity riskNoBaseline 100 ≤ 0 := by
    norm_num [calculateQuantity, ratTrunc, riskNoBaseline]
  have h := c1_entry_atomicity.1 [] riskNoBaseline false Option.none "AAPL.US" "NYSE"
    Signal.long (some 100) (some "ord-1") (some 7) 0
  have h' := c1_entry_atomicity.1 [] riskNoBaseline false Option.none "AAPL.US" "NYSE"
    Signal.long (some 100) Option.none (some 7) 0
  exact ⟨h.2 100 "ord-1" rfl (by norm_num) hq rfl,
         h'.1 (Or.inr (Or.inr (Or.inr rfl)))⟩

/-- C2.  Exit is atomic with respect to broker failure, in both bots:
`_exit_position` is a no-op when no position is stored for the symbol,
when the stored position is already CLOSED, and when the broker's
`close_position` reports failure (state, daily realized P&L and trade
history all unchanged, so the close is retried next tick); when the
broker reports success, the position transitions to CLOSED with close
price/time/reason set, its realized P&L is added to the risk manager's
daily total, and no other symbol's position changes. -/
theorem c2_exit_atomicity :
    (∀ (st : BotState) (symbol : String) (price : ℚ) (reason : String)
        (success : Bool) (now : ℚ),
        (lookupA symbol st.positions = Option.none →
          exitPosition st symbol price reason success now = st)
      ∧ (∀ pos, lookupA symbol st.positions = some pos →
          pos.status = PositionStatus.closed →
          exitPosition st symbol price reason success now = st)
      ∧ (∀ pos, lookupA symbol st.positions = some pos →
          pos.status = PositionStatus.opened → success = false →
          exitPosition st symbol price reason success now = st)
      ∧ (∀ pos, lookupA symbol st.positions = some pos →
          pos.status = PositionStatus.opened → success = true →
          (exitPosition st symbol price reason success now).positions
              = setA symbol (pos.closeAt price now reason) st.positions
          ∧ lookupA symbol (exitPosition st symbol price reason success now).positions
              = some (pos.closeAt price now reason)
          ∧ (pos.closeAt price now reason).status = PositionStatus.closed
          ∧ (pos.closeAt price now reason).closePrice = some price
          ∧ (pos.closeAt price now reason).closeTime = some now
          ∧ (pos.closeAt price now reason).closeReason = some reason
          ∧ (exitPosition st symbol price reason success now).risk
              = recordRealizedPnl st.risk ((pos.closeAt price now reason).realizedPnl.getD 0)
          ∧ (exitPosition st symbol price reason success now).risk.dailyRealizedPnl
              = st.risk.dailyRealizedPnl + (pos.closeAt price now reason).realizedPnl.getD 0
          ∧ ∀ s', s' ≠ symbol →
              lookupA s' (exitPosition st symbol price reason success now).positions
                = lookupA s' st.positions))
  ∧ (∀ (st : Crypto.CBotState) (symbol : String) (price : ℚ) (reason : String)
        (success : Bool) (now : ℚ),
        (lookupA symbol st.positions = Option.none →
          Crypto.cryptoExitPosition st symbol price reason success now = st)
      ∧ (∀ pos, lookupA symbol st.positions = some pos →
          pos.status = PositionStatus.closed →
          Crypto.cryptoExitPosition st symbol price reason success now = st)
      ∧ (∀ pos, lookupA symbol st.positions = some pos →
          pos.status = PositionStatus.opened → success = false →
          Crypto.cryptoExitPosition st symbol price reason success now = st)
      ∧ (∀ pos, lookupA symbol st.positions = some pos →
          pos.status = PositionStatus.opened → success = true →
          (Crypto.cryptoExitPosition st symbol price reason success now).positions
              = setA symbol (pos.closeAt price now reason) st.positions
          ∧ (pos.closeAt price now reason).status = PositionStatus.closed
          ∧ (pos.closeAt price now reason).closePrice = some price
          ∧ (pos.closeAt price now reason).closeTime = some now
          ∧ (pos.closeAt price now reason).closeReason = some reason
          ∧ (Crypto.cryptoExitPosition st symbol price reason success now).risk.dailyRealizedPnl
              = st.risk.dailyRealizedPnl
                + (pos.closeAt price now reason).realizedPnl.getD 0
          ∧ ∀ s', s' ≠ symbol →
              lookupA s' (Crypto.cryptoExitPosition st symbol price reason success now).positions
                = lookupA s' st.positions)) := by
  constructor
  · intro st symbol price reason success now
    refine ⟨?_, ?_, ?_, ?_⟩
    · intro h; simp [exitPosition, h]
    · intro pos hlook hstatus
      simp [exitPosition, hlook, hstatus]
    · intro pos hlook hstatus hsucc
      subst hsucc
      simp [exitPosition, hlook, hstatus]
    · intro pos hlook hstatus hsucc
      subst hsucc
      refine ⟨?_, ?_, rfl, rfl, rfl, rfl, ?_, ?_, ?_⟩
      · simp [exitPosition, hlook, hstatus]
      · simp [exitPosition, hlook, hstatus]
      · simp [exitPosition, hlook, hstatus]
      · simp [exitPosition, hlook, hstatus, recordRealizedPnl]
      · intro s' hs'
        simp [exitPosition, hlook, hstatus, lookupA_setA_ne _ _ _ _ hs']
  · intro st symbol price reason success now
    refine ⟨?_, ?_, ?_, ?_⟩
    · intro h; simp [Crypto.cryptoExitPosition, h]
    · intro pos hlook hstatus
      simp [Crypto.cryptoExitPosition, hlook, hstatus]
    · intro pos hlook hstatus hsucc
      subst hsucc
      simp [Crypto.cryptoExitPosition, hlook, hstatus]
    · intro pos hlook hstatus hsucc
      subst hsucc
      refine ⟨?_, rfl, rfl, rfl, rfl, ?_, ?_⟩
      · simp [Crypto.cryptoExitPosition, hlook, hstatus]
      · simp [Crypto.cryptoExitPosition, hlook, hstatus, recordRealizedPnl]
      · intro s' hs'
        simp [Crypto.cryptoExitPosition, hlook, hstatus, lookupA_setA_ne _ _ _ _ hs']

/-- The orchestrator holding one OPEN equity position. -/
def botStateOpen : BotState :=
  { positions := [("AAPL.US", posLong110)], risk := riskBase1000, history := [] }

/-- C2 witness: a confirmed close transitions the concrete open position
to CLOSED with its close fields set and the P&L recorded, while a failed
close leaves the whole state untouched. -/
theorem c2_exit_atomicity_witness :
    (exitPosition botStateOpen "AAPL.US" 110 "manual" false 5 = botStateOpen)
  ∧ (exitPosition botStateOpen "AAPL.US" 110 "manual" true 5).positions
      = setA "AAPL.US" (posLong110.closeAt 110 5 "manual") botStateOpen.positions
  ∧ (posLong110.closeAt 110 5 "manual").status = PositionStatus.closed := by
  have h := c2_exit_atomicity.1 botStateOpen "AAPL.US" 110 "manual"
  have hlook : lookupA "AAPL.US" botStateOpen.positions = some posLong110 := by
    simp [botStateOpen, lookupA]
  exact ⟨(h false 5).2.2.1 posLong110 hlook rfl rfl,
         ((h true 5).2.2.2 posLong110 hlook rfl rfl).1,
         ((h true 5).2.2.2 posLong110 hlook rfl rfl).2.2.1⟩

theorem roundHalfEven_intCast (n : ℤ) : roundHalfEven (n : ℚ) = n := by
  norm_num [roundHalfEven, Int.floor_intCast]

theorem roundHalfEven_nonneg (x : ℚ) (h : 0 ≤ x) : 0 ≤ roundHalfEven x := by
  have hf : (0 : ℤ) ≤ ⌊x⌋ := Int.floor_nonneg.mpr h
  unfold roundHalfEven
  split_ifs <;> omega

theorem pyRound_eq_self_of_int (x : ℚ) (p : ℕ) (m : ℤ) (h : x * 10 ^ p = (m : ℚ)) :
    pyRound x p = x := by
  have h10 : ((10 : ℚ)) ^ p ≠ 0 := by positivity
  unfold pyRound
  rw [h, roundHalfEven_intCast, div_eq_iff h10]
  exact h.symm

theorem pyRound_nonneg (x : ℚ) (p : ℕ) (h : 0 ≤ x) : 0 ≤ pyRound x p := by
  unfold pyRound
  apply div_nonneg _ (by positivity)
  exact_mod_cast roundHalfEven_nonneg (x * 10 ^ p) (mul_nonneg h (by positivity))

theorem precisionOf_of_one_le (s : ℚ) (h : 1 ≤ s) : precisionOf s = 0 := by
  unfold precisionOf
  rcases hd : s.den with _ | d
  · exact absurd hd s.den_nz
  · show precAux s 0 (d + 1) = 0
    unfold precAux
    norm_num [h]

/-- C4 (amended).  Position sizing is total and floors, with the crypto
re-rounding restricted to well-formed step sizes: the equity bot returns
`floor(max_position_value / price)` for positive prices (with the
configured value non-negative) and 0 for non-positive prices, never
negative; the crypto bot returns 0 when price or step is non-positive,
never a negative quantity, and - whenever the step size times
`10^precision` is an integer (every Binance power-of-ten step) - a
non-negative integer multiple of the step that never exceeds
`max_position_value / price`.  For other step sizes the final decimal
rounding can round up past the cap (see the counterexample). -/
theorem c4_quantity_sizing :
    (∀ (r : RiskState) (price : ℚ),
        (price ≤ 0 → calculateQuantity r price = 0)
      ∧ (0 ≤ r.maxPositionValue → 0 < price →
          calculateQuantity r price = ⌊r.maxPositionValue / price⌋)
      ∧ 0 ≤ calculateQuantity r price)
  ∧ (∀ (r : RiskState) (price stepSize : ℚ),
        (price ≤ 0 ∨ stepSize ≤ 0 → cryptoCalculateQuantity r price stepSize = 0)
      ∧ (0 ≤ r.maxPositionValue → 0 ≤ cryptoCalculateQuantity r price stepSize)
      ∧ (0 < price → 0 < stepSize → 0 ≤ r.maxPositionValue →
          (∃ k : ℤ, stepSize * 10 ^ precisionOf stepSize = (k : ℚ)) →
          (∃ n : ℕ, cryptoCalculateQuantity r price stepSize = (n : ℚ) * stepSize)
          ∧ cryptoCalculateQuantity r price stepSize ≤ r.maxPositionValue / price)) := by
  constructor
  · intro r price
    refine ⟨fun h => by simp [calculateQuantity, h], ?_, ?_⟩
    · intro hm hp
      have hx : 0 ≤ r.maxPositionValue / price := div_nonneg hm hp.le
      simp only [calculateQuantity, not_le.mpr hp, if_false, ratTrunc, hx, if_pos]
      exact max_eq_left (Int.floor_nonneg.mpr hx)
    · by_cases hp : price ≤ 0
      · simp [calculateQuantity, hp]
      · simp only [calculateQuantity, hp, if_false]
        exact le_max_right _ 0
  · intro r price stepSize
    refine ⟨fun h => by simp [cryptoCalculateQuantity, h], ?_, ?_⟩
    · intro hm
      by_cases hg : price ≤ 0 ∨ stepSize ≤ 0
      · simp [cryptoCalculateQuantity, hg]
      · have hps := not_or.mp hg
        have hp : 0 < price := not_le.mp hps.1
        have hs : 0 < stepSize := not_le.mp hps.2
        simp only [cryptoCalculateQuantity, hg, if_false]
        apply pyRound_nonneg
        have hdiv : 0 ≤ r.maxPositionValue / price / stepSize :=
          div_nonneg (div_nonneg hm hp.le) hs.le
        exact mul_nonneg (by exact_mod_cast Int.floor_nonneg.mpr hdiv) hs.le
    · intro hp hs hm hk
      rcases hk with ⟨k, hk⟩
      have hg : ¬(price ≤ 0 ∨ stepSize ≤ 0) :=
        not_or.mpr ⟨not_le.mpr hp, not_le.mpr hs⟩
      simp only [cryptoCalculateQuantity, hg, if_false]
      have hqint : ((⌊r.maxPositionValue / price / stepSize⌋ : ℚ) * stepSize)
          * 10 ^ precisionOf stepSize
          = ((⌊r.maxPositionValue / price / stepSize⌋ * k : ℤ) : ℚ) := by
        rw [mul_assoc, hk]
        push_cast
        ring
      rw [pyRound_eq_self_of_int _ _ _ hqint]
      have hdiv : 0 ≤ r.maxPositionValue / price / stepSize :=
        div_nonneg (div_nonneg hm hp.le) hs.le
      have hq0 : 0 ≤ ⌊r.maxPositionValue / price / stepSize⌋ := Int.floor_nonneg.mpr hdiv
      constructor
      · refine ⟨(⌊r.maxPositionValue / price / stepSize⌋).toNat, ?_⟩
        have : ((⌊r.maxPositionValue / price / stepSize⌋.toNat : ℕ) : ℚ)
            = ((⌊r.maxPositionValue / price / stepSize⌋ : ℤ) : ℚ) := by
          exact_mod_cast congrArg (fun z : ℤ => (z : ℚ)) (Int.toNat_of_nonneg hq0)
        rw [this]
      · calc ((⌊r.maxPositionValue / price / stepSize⌋ : ℚ)) * stepSize
            ≤ (r.maxPositionValue / price / stepSize) * stepSize :=
              mul_le_mul_of_nonneg_right (Int.floor_le _) hs.le
          _ = r.maxPositionValue / price := div_mul_cancel₀ _ (ne_of_gt hs)

/-- A crypto risk manager whose budget is 1.6 USDT. -/
def riskCrypto85 : RiskState :=
  { riskNoBaseline with maxPositionValue := 8/5 }

/-- C4 counterexample: with `max_position_value = 1.6`, `price = 1` and
`step_size = 1.5`, the crypto `calculate_quantity` floors to `1.5` but the
final `round(qty, 0)` (half-to-even) rounds it up to `2`, which exceeds
`max_position_value / price = 1.6` and is not a multiple of the step. -/
theorem c4_quantity_sizing_counterexample :
    cryptoCalculateQuantity riskCrypto85 1 (3/2) = 2 ∧
    ¬(cryptoCalculateQuantity riskCrypto85 1 (3/2) ≤ riskCrypto85.maxPositionValue / 1) := by
  have hprec : precisionOf (3/2 : ℚ) = 0 := precisionOf_of_one_le _ (by norm_num)
  have hfloor : ⌊(8 : ℚ)/5 / 1 / (3/2)⌋ = 1 := by
    norm_num [Int.floor_eq_iff]
  have hfloor32 : ⌊(3 : ℚ)/2⌋ = 1 := by
    norm_num [Int.floor_eq_iff]
  have hmain : cryptoCalculateQuantity riskCrypto85 1 (3/2) = 2 := by
    simp only [cryptoCalculateQuantity, riskCrypto85, riskNoBaseline]
    norm_num [hprec, hfloor, pyRound, roundHalfEven, hfloor32]
  refine ⟨hmain, ?_⟩
  rw [hmain]
  norm_num [riskCrypto85, riskNoBaseline]

/-- An equity risk manager with a 100 budget (the spec's sizing example). -/
def riskMax100 : RiskState :=
  { riskNoBaseline with maxPositionValue := 100 }

/-- C4 witness: `calculate_quantity(33.33)` with budget 100 floors to 3
on the equity bot, and the crypto bot with a unit step returns an integer
multiple of the step below the cap. -/
theorem c4_quantity_sizing_witness :
    calculateQuantity riskMax100 (3333/100) = 3
  ∧ (∃ n : ℕ, cryptoCalculateQuantity riskNoBaseline 100 1 = (n : ℚ) * 1)
  ∧ cryptoCalculateQuantity riskNoBaseline 100 1 ≤ riskNoBaseline.maxPositionValue / 100 := by
  have heq := (c4_quantity_sizing.1 riskMax100 (3333/100)).2.1
    (by norm_num [riskMax100, riskNoBaseline]) (by norm_num)
  have hcr := (c4_quantity_sizing.2 riskNoBaseline 100 1).2.2 (by norm_num) (by norm_num)
    (by norm_num [riskNoBaseline])
    ⟨1, by rw [precisionOf_of_one_le 1 le_rfl]; norm_num⟩
  refine ⟨?_, hcr.1, hcr.2⟩
  rw [heq]
  norm_num [riskMax100, riskNoBaseline, Int.floor_eq_iff]

/-- An established ORB state with range `[10, 12]` for one symbol. -/
def orbEstState : ORBState :=
  { orbMinutes := 15, volumeMultiplier := 3/2,
    orb := [("AAPL.US", (12, 10))], established := ["AAPL.US"] }

/-- C6 witness: with range `[10, 12]` and no volume filter, price 12.01
gives LONG, 9.99 gives SHORT and 11 gives NONE. -/
theorem c6_orb_breakout_exact_witness :
    checkSignal orbEstState "AAPL.US" (1201/100) 0 0 = Signal.long ∧
    checkSignal orbEstState "AAPL.US" (999/100) 0 0 = Signal.short ∧
    checkSignal orbEstState "AAPL.US" 11 0 0 = Signal.none := by
  have h := c6_orb_breakout_exact.2 orbEstState "AAPL.US"
  have hm : "AAPL.US" ∈ orbEstState.established := by simp [orbEstState]
  have hl : lookupA "AAPL.US" orbEstState.orb = some (12, 10) := by simp [orbEstState, lookupA]
  exact ⟨(h (1201/100) 0 12 10 hm hl (by norm_num)).1.mpr (by norm_num),
         (h (999/100) 0 12 10 hm hl (by norm_num)).2.1.mpr (by norm_num),
         (h 11 0 12 10 hm hl (by norm_num)).2.2.mpr (by norm_num)⟩

end Trading
